import Mathlib

/-!
Shallow embedding of the mileage-audit core of the ICT_database repository
(`src/app/utils.py`, `src/app/models.py`, `src/app/routes_user.py`).

Python strings are modelled as Lean `String` (with helpers over `List Char`);
Python `int` is `Int`; nullable values are `Option`; the SQLAlchemy table
`vehicle_request_form` is a `List Record` queried by pure list functions.
CPython's `int(str)` builtin is modelled for ASCII base-10 input (optional
sign, decimal digits, single underscores permitted between digits, and
surrounding whitespace allowed), which is the fragment exercised by the code.
-/

namespace ICT

/-- Python's default whitespace set for `str.strip()`, restricted to ASCII:
space, tab, line feed, carriage return, vertical tab, form feed. -/
def isPySpace (c : Char) : Bool :=
  c == ' ' || c == '\t' || c == '\n' || c == '\r' || c == '\x0b' || c == '\x0c'

/-- Embeds Python `str.strip()`: drop whitespace from both ends. -/
def pyStrip (l : List Char) : List Char :=
  ((l.dropWhile isPySpace).reverse.dropWhile isPySpace).reverse

/-- `pyStrip` lifted to `String`. -/
def pyStripS (s : String) : String := ⟨pyStrip s.data⟩

/-- Numeric value of an ASCII decimal digit. -/
def digitVal (c : Char) : Nat := c.toNat - 48

/-- Value of a list of decimal digits, most significant first. -/
def natOfDigits (l : List Char) : Nat := l.foldl (fun a c => 10 * a + digitVal c) 0

/-- CPython rejects `__` inside an integer literal string. -/
def noDoubleUnderscore : List Char → Bool
  | '_' :: '_' :: _ => false
  | _ :: rest => noDoubleUnderscore rest
  | [] => true

/-- Validity of the digit part of CPython's `int()` grammar: nonempty, only
digits and underscores, starts and ends with a digit, no doubled underscore. -/
def digitPartOk (l : List Char) : Bool :=
  !l.isEmpty
  && l.all (fun c => c.isDigit || c == '_')
  && (match l.head? with | some c => c.isDigit | none => false)
  && (match l.getLast? with | some c => c.isDigit | none => false)
  && noDoubleUnderscore l

/-- Drop the underscore digit separators before evaluating. -/
def stripUnderscores (l : List Char) : List Char := l.filter (fun c => c != '_')

/-- Embeds CPython `int(s)` for base 10 over ASCII: surrounding whitespace is
ignored, then an optional single sign, then a valid digit part; every other
input raises `ValueError`, modelled as `none`. -/
def pyIntOfChars (l : List Char) : Option Int :=
  match pyStrip l with
  | '-' :: rest =>
    if digitPartOk rest then some (-(natOfDigits (stripUnderscores rest) : Int)) else none
  | '+' :: rest =>
    if digitPartOk rest then some ((natOfDigits (stripUnderscores rest) : Int)) else none
  | t => if digitPartOk t then some ((natOfDigits (stripUnderscores t) : Int)) else none

/-- Embeds `parse_mileage_or_none` (`src/app/utils.py` lines 61-75):
`None` stays `None`; the string is stripped; an empty result is `None`;
all commas are removed by `s.replace(",", "")`; the rest goes to `int`. -/
def parse_mileage_or_none (v : Option String) : Option Int :=
  match v with
  | none => none
  | some str =>
    let s := pyStrip str.data
    if s.isEmpty then none
    else pyIntOfChars (s.filter (fun c => c != ','))

/-- Delete every comma of a string (what `s.replace(",", "")` does). -/
def removeAllCommas (s : String) : String := ⟨s.data.filter (fun c => c != ',')⟩

/-- Embeds the `vehicle_request_form` row of `src/app/models.py`. Text columns
that the audit only ever displays are modelled as `String`; the columns the
audit branches on or parses (`vehicle`, `start_mileage`, `end_mileage`) keep
their nullability as `Option String`. -/
structure Record where
  id : Nat
  name : String
  phone : String
  email : String
  vehicle : Option String
  dep_date : String
  ret_date : String
  start_mileage : Option String
  end_mileage : Option String
  destination : String
  purpose : String
  project : String
  comments : String
  submitted_time : String
  admin_comment : String
  status : String
  deriving DecidableEq

/-- Embeds `VehicleRequestForm.query.get(record_id)`: the row with the given
primary key. -/
def getById (store : List Record) (record_id : Nat) : Option Record :=
  store.find? (fun r => decide (r.id = record_id))

/-- The audit's `vehicle = (rec.vehicle or "").strip()`. -/
def vehicleOf (rec : Record) : String := pyStripS (rec.vehicle.getD "")

/-- Embeds the sibling query: `filter_by(vehicle=vehicle, status="submitted")`
then `filter(VehicleRequestForm.id != rec.id)`. -/
def othersQuery (store : List Record) (vehicle : String) (target_id : Nat) : List Record :=
  store.filter (fun r =>
    decide (r.vehicle = some vehicle ∧ r.status = "submitted" ∧ r.id ≠ target_id))

/-- One step of the candidate-parsing loop (`utils.py` lines 127-133): keep a
sibling only when both of its mileage fields parse. -/
def parseCand (r : Record) : Option (Record × Int × Int) :=
  match parse_mileage_or_none r.start_mileage, parse_mileage_or_none r.end_mileage with
  | some s, some e => some (r, s, e)
  | _, _ => none

/-- The candidate pool used for overlap detection. -/
def parsedCandidates (others : List Record) : List (Record × Int × Int) :=
  others.filterMap parseCand

/-- Embeds the overlap loop (`utils.py` lines 135-140): run only when both of
the target's bounds parsed, and keep candidates with `s0 < e and e0 > s`. -/
def overlapsFor (s0 e0 : Option Int) (parsed : List (Record × Int × Int)) :
    List (Record × Int × Int) :=
  match s0, e0 with
  | some a, some b => parsed.filter (fun t => decide (a < t.2.2 ∧ b > t.2.1))
  | _, _ => []

/-- Embeds `order_by(VehicleRequestForm.id.desc()).first()`: the row with the
largest identifier (the primary key is unique in the database). -/
def maxById : List Record → Option Record
  | [] => none
  | r :: rest =>
    match maxById rest with
    | none => some r
    | some m => if m.id < r.id then some r else some m

/-- Issue text of `utils.py` line 115. -/
def invalidMsg : String := "Invalid or missing mileage on submitted record."

/-- Issue text of `utils.py` line 117. -/
def endLtStartMsg (a b : Int) : String :=
  "End mileage < start mileage (" ++ toString a ++ " -> " ++ toString b ++ ")."

/-- Issue text of `utils.py` line 142. -/
def overlapMsg (n : Nat) : String :=
  "Overlapping mileage range detected with " ++ toString n ++ " other record(s)."

/-- Issue text of `utils.py` line 157. -/
def gapMsg : String := "Gap > 5 miles detected to the previous record."

/-- Embeds `utils.py` lines 113-117: the target's own validity issues. -/
def targetIssues (s0 e0 : Option Int) : List String :=
  match s0, e0 with
  | some a, some b => if b < a then [endLtStartMsg a b] else []
  | _, _ => [invalidMsg]

/-- Embeds `utils.py` lines 141-142: one issue naming the overlap count. -/
def overlapIssue (overlaps : List (Record × Int × Int)) : List String :=
  if overlaps.isEmpty then [] else [overlapMsg overlaps.length]

/-- Embeds `utils.py` lines 152-157: the gap issue against the designated
previous record. -/
def gapIssue (prev : Option Record) (s0 : Option Int) : List String :=
  match prev, s0 with
  | some p, some a =>
    match parse_mileage_or_none p.end_mileage with
    | some pe => if a - pe > 5 then [gapMsg] else []
    | none => []
  | _, _ => []

/-- Python `f"{x}"` on an int-or-None value. -/
def pyShowOptInt : Option Int → String
  | none => "None"
  | some n => toString n

/-- Python `f"{x}"` on a string-or-None value. -/
def pyShowOptStr : Option String → String
  | none => "None"
  | some s => s

/-- Embeds the subject line of `utils.py` line 162. -/
def mkSubject (vehicle : String) (rid : Nat) : String :=
  "[Vehicle Mileage Check] " ++ vehicle ++ " - Submitted Record #" ++ toString rid

/-- One line of the overlapping-records listing (`utils.py` line 184). -/
def candidateLine (t : Record × Int × Int) : String :=
  "  - Record ID: " ++ toString t.1.id ++ ", Name: " ++ t.1.name
    ++ ", Start mileage: " ++ toString t.2.1 ++ ", End mileage: " ++ toString t.2.2 ++ "\n"

/-- Embeds the alert body construction of `utils.py` lines 164-184. -/
def buildBody (rec : Record) (s0 e0 : Option Int) (issues : List String)
    (overlaps : List (Record × Int × Int)) : String :=
  "Mileage audit detected potential issues.\n\n"
    ++ "Submitted record:\n"
    ++ "  - Record ID: " ++ toString rec.id ++ "\n"
    ++ "    Name: " ++ rec.name ++ "\n"
    ++ "    User Email: " ++ rec.email ++ "\n"
    ++ "    Vehicle: " ++ pyShowOptStr rec.vehicle ++ "\n"
    ++ "    Departure date: " ++ rec.dep_date ++ "\n"
    ++ "    Return date: " ++ rec.ret_date ++ "\n"
    ++ "    Start mileage: " ++ pyShowOptInt s0 ++ "\n"
    ++ "    End mileage: " ++ pyShowOptInt e0 ++ "\n"
    ++ "    Submitted Time: " ++ rec.submitted_time ++ "\n\n"
    ++ "Findings:\n"
    ++ String.join (issues.map (fun it => "  - " ++ it ++ "\n"))
    ++ (if overlaps.isEmpty then ""
        else "\nOverlapping record(s):\n" ++ String.join (overlaps.map candidateLine))

/-- Observable outcome of one audit run: the detected issue strings, the
overlapping candidates, and the alert content handed to dispatch (if any). -/
structure AuditResult where
  issues : List String
  overlaps : List (Record × Int × Int)
  alert : Option (String × String)
  deriving DecidableEq

/-- The audit body once the target is a submitted record with a nonblank
vehicle (`utils.py` lines 110-186). -/
def mkSubmittedResult (store : List Record) (rec : Record) : AuditResult :=
  let s0 := parse_mileage_or_none rec.start_mileage
  let e0 := parse_mileage_or_none rec.end_mileage
  let others := othersQuery store (vehicleOf rec) rec.id
  let overlaps := overlapsFor s0 e0 (parsedCandidates others)
  let issues := targetIssues s0 e0 ++ overlapIssue overlaps ++ gapIssue (maxById others) s0
  if issues.isEmpty then { issues := issues, overlaps := overlaps, alert := none }
  else
    { issues := issues, overlaps := overlaps,
      alert := some (mkSubject (vehicleOf rec) rec.id, buildBody rec s0 e0 issues overlaps) }

/-- Embeds the detection part of `audit_vehicle_mileage_and_alert`
(`utils.py` lines 96-186): the three silent early returns, then the body. -/
def auditCore (store : List Record) (record_id : Nat) : AuditResult :=
  match getById store record_id with
  | none => { issues := [], overlaps := [], alert := none }
  | some rec =>
    if rec.status ≠ "submitted" then { issues := [], overlaps := [], alert := none }
    else if vehicleOf rec = "" then { issues := [], overlaps := [], alert := none }
    else mkSubmittedResult store rec

/-- The mail transport behind `mail.send`: given recipient, subject and body it
either delivers or raises, modelled as `Except` with the exception text. -/
abbrev Notifier := String → String → String → Except String Unit

/-- Embeds `_get_alert_email` (`utils.py` lines 56-58): the `ALERT_EMAIL`
environment variable read at call time, with the hard-coded default, stripped. -/
def _get_alert_email (env : Option String) : String :=
  pyStripS (env.getD "yuhuitestict@gmail.com")

/-- What one call of `send_mileage_error_alert` did: skipped because the
recipient is blank, delivered, or caught a transport failure and logged it. -/
inductive SendOutcome where
  | skipped
  | sent (recipient subject body : String)
  | failedLogged (log : String)
  deriving DecidableEq

/-- Embeds `send_mileage_error_alert` (`utils.py` lines 78-93): a blank
recipient returns before any transport call; otherwise the transport runs
inside `try`, and any exception is converted to a log line. -/
def send_mileage_error_alert (env : Option String) (notifier : Notifier)
    (subject body : String) : SendOutcome :=
  let alert_email := _get_alert_email env
  if alert_email = "" then SendOutcome.skipped
  else
    match notifier alert_email subject body with
    | Except.ok _ => SendOutcome.sent alert_email subject body
    | Except.error e => SendOutcome.failedLogged ("[MileageAudit] Email send failed: " ++ e)

/-- One full run of `audit_vehicle_mileage_and_alert`: the record store after
the run, the detection result, and `dispatch = none` exactly when
`send_mileage_error_alert` was never invoked. -/
structure AuditRun where
  store : List Record
  result : AuditResult
  dispatch : Option SendOutcome

/-- Embeds `audit_vehicle_mileage_and_alert` (`utils.py` lines 96-186) end to
end. The function only reads the store, so the store it leaves behind is the
one it was given; the alert is dispatched only when present. -/
def audit_vehicle_mileage_and_alert (env : Option String) (notifier : Notifier)
    (store : List Record) (record_id : Nat) : AuditRun :=
  let res := auditCore store record_id
  { store := store
    result := res
    dispatch := res.alert.map (fun sb => send_mileage_error_alert env notifier sb.1 sb.2) }

/-- Embeds the tail of the submission handler `vehicle_form`
(`src/app/routes_user.py` lines 268-277): for a non-save action the audit call
sits inside `try`, its failure is only logged, and the handler always answers
with the `form_submitted` redirect; a save action redirects to the user's
forms without running the audit. Returns the redirect target and the log. -/
def vehicle_form_after_commit (action : String) (auditOutcome : Except String AuditRun) :
    String × List String :=
  if action ≠ "save" then
    match auditOutcome with
    | Except.error e => ("form_submitted", ["[MileageAudit] Audit failed: " ++ e])
    | Except.ok _ => ("form_submitted", [])
  else ("user_my_forms", [])

/-- A transport that always delivers, for concrete witnesses. -/
def notifOk : Notifier := fun _ _ _ => Except.ok ()

/-- Template row for the concrete witness stores. -/
def baseRec : Record :=
  { id := 0, name := "Alex", phone := "555", email := "alex@example.org",
    vehicle := some "2022 RAM", dep_date := "2024-01-01", ret_date := "2024-01-02",
    start_mileage := none, end_mileage := none, destination := "Depot",
    purpose := "Delivery", project := "P1", comments := "",
    submitted_time := "01-01-2024", admin_comment := "", status := "submitted" }

/-- Scenario B of the spec: the submitted target, mileage 1150-1250. -/
def recA : Record := { baseRec with id := 10, start_mileage := some "1150", end_mileage := some "1250" }

/-- Scenario B of the spec: the earlier submitted sibling, mileage 1100-1200. -/
def recB : Record := { baseRec with id := 5, start_mileage := some "1100", end_mileage := some "1200" }

/-- Store for the overlap witness: the target overlaps its sibling. -/
def wstore : List Record := [recA, recB]

/-- Gap scenario: target starting at 1210 against a sibling that ended at 1200. -/
def recC : Record := { baseRec with id := 10, start_mileage := some "1210", end_mileage := some "1300" }

/-- Gap scenario: the designated previous record, mileage 1100-1200. -/
def recD : Record := { baseRec with id := 5, start_mileage := some "1100", end_mileage := some "1200" }

/-- Store for the gap witness. -/
def gstore : List Record := [recC, recD]

/-- Zero-width target: start and end mileage both parse to 70. -/
def recZ : Record := { baseRec with id := 10, start_mileage := some "70", end_mileage := some "70" }

/-- Candidate whose range 50-100 strictly contains the point 70. -/
def recW : Record := { baseRec with id := 5, start_mileage := some "50", end_mileage := some "100" }

/-- Store on which the zero-width range is reported as overlapping. -/
def zstore : List Record := [recZ, recW]

/-- A draft record with mileage fields that would otherwise raise issues. -/
def draftRec : Record :=
  { baseRec with id := 7, status := "draft", start_mileage := some "abc", end_mileage := none }

/-- Store for the draft no-op witness. -/
def dstore : List Record := [draftRec]

/-- Zero-width candidate: start and end mileage both 70. -/
def recZc : Record := { baseRec with id := 5, start_mileage := some "70", end_mileage := some "70" }

/-- Target whose range 50-100 strictly contains the zero-width candidate. -/
def recWt : Record := { baseRec with id := 10, start_mileage := some "50", end_mileage := some "100" }

/-- Store on which a zero-width candidate is reported as overlapping. -/
def zstore2 : List Record := [recWt, recZc]

end ICT
namespace ICT

theorem data_append (s t : String) : (s ++ t).data = s.data ++ t.data := by
  cases s; cases t; rfl

theorem head_data_append {s : String} (t : String) {c : Char}
    (h : s.data.head? = some c) : (s ++ t).data.head? = some c := by
  rw [data_append]
  cases hs : s.data with
  | nil => rw [hs] at h; cases h
  | cons a as => rw [hs] at h; simpa using h

theorem str_ne_of_head {s t : String} {c d : Char}
    (hs : s.data.head? = some c) (ht : t.data.head? = some d) (hcd : c ≠ d) : s ≠ t := by
  intro he
  rw [he] at hs
  rw [hs] at ht
  exact hcd (Option.some.inj ht)

theorem dropWhile_append_all {p : Char → Bool} {a : List Char} (x : List Char)
    (h : a.all p) : (a ++ x).dropWhile p = x.dropWhile p := by
  induction a with
  | nil => rfl
  | cons c rest ih =>
    simp only [List.all_cons, Bool.and_eq_true] at h
    simp [List.dropWhile_cons, h.1, ih h.2]

theorem dropWhile_append_ne {p : Char → Bool} {m : List Char} (b : List Char)
    (h : m.dropWhile p ≠ []) : (m ++ b).dropWhile p = m.dropWhile p ++ b := by
  induction m with
  | nil => simp [List.dropWhile] at h
  | cons c rest ih =>
    by_cases hc : p c
    · simp only [List.cons_append, List.dropWhile_cons, hc, if_true] at h ⊢
      exact ih h
    · simp [List.dropWhile_cons, hc]

theorem dropWhile_nil_of_all {p : Char → Bool} {l : List Char} (h : l.all p) :
    l.dropWhile p = [] :=
  List.dropWhile_eq_nil_iff.mpr (fun x hx => List.all_eq_true.mp h x hx)

theorem all_dropWhile {p q : Char → Bool} {l : List Char} (h : l.all q) :
    (l.dropWhile p).all q := by
  induction l with
  | nil => exact h
  | cons c rest ih =>
    simp only [List.all_cons, Bool.and_eq_true] at h
    by_cases hc : p c
    · simp [List.dropWhile_cons, hc, ih h.2]
    · simp [List.dropWhile_cons, hc, h.1, h.2]

theorem all_takeWhile {p : Char → Bool} {l : List Char} : (l.takeWhile p).all p := by
  induction l with
  | nil => rfl
  | cons c rest ih =>
    by_cases hc : p c
    · simp [List.takeWhile_cons, hc, ih]
    · simp [List.takeWhile_cons, hc]

theorem pyStrip_of_all {l : List Char} (h : l.all isPySpace) : pyStrip l = [] := by
  unfold pyStrip
  rw [dropWhile_nil_of_all h]
  rfl

theorem pyStrip_ws_wrap {a b : List Char} (m : List Char)
    (ha : a.all isPySpace) (hb : b.all isPySpace) :
    pyStrip (a ++ m ++ b) = pyStrip m := by
  unfold pyStrip
  rw [List.append_assoc, dropWhile_append_all (m ++ b) ha]
  by_cases h : m.dropWhile isPySpace = []
  · have hm : m.all isPySpace := by
      rw [List.all_eq_true]
      exact fun x hx => List.dropWhile_eq_nil_iff.mp h x hx
    have hmb : (m ++ b).all isPySpace := by
      rw [List.all_eq_true]
      intro x hx
      rcases List.mem_append.mp hx with hx | hx
      · exact List.all_eq_true.mp hm x hx
      · exact List.all_eq_true.mp hb x hx
    rw [dropWhile_nil_of_all hmb, h]
  · rw [dropWhile_append_ne b h, List.reverse_append,
      dropWhile_append_all _ (by rw [List.all_reverse]; exact hb)]

theorem pyStrip_decomp (l : List Char) :
    ∃ a b, a.all isPySpace ∧ b.all isPySpace ∧ l = a ++ pyStrip l ++ b := by
  refine ⟨l.takeWhile isPySpace,
    ((l.dropWhile isPySpace).reverse.takeWhile isPySpace).reverse,
    all_takeWhile, by rw [List.all_reverse]; exact all_takeWhile, ?_⟩
  conv_lhs => rw [← List.takeWhile_append_dropWhile isPySpace l]
  rw [List.append_assoc]
  congr 1
  conv_lhs => rw [← List.reverse_reverse (l.dropWhile isPySpace),
    ← List.takeWhile_append_dropWhile isPySpace (l.dropWhile isPySpace).reverse]
  rw [List.reverse_append]
  rfl

theorem pyStrip_idem (l : List Char) : pyStrip (pyStrip l) = pyStrip l := by
  obtain ⟨a, b, ha, hb, hl⟩ := pyStrip_decomp l
  have h := congrArg pyStrip hl
  rw [pyStrip_ws_wrap (pyStrip l) ha hb] at h
  exact h.symm

theorem comma_not_space {c : Char} (h : isPySpace c = true) : (c != ',') = true := by
  simp only [isPySpace, Bool.or_eq_true, beq_iff_eq] at h
  rcases h with ((((h | h) | h) | h) | h) | h <;> subst h <;> decide

theorem filter_comma_of_all_space {l : List Char} (h : l.all isPySpace) :
    l.filter (fun c => c != ',') = l :=
  List.filter_eq_self.mpr (fun c hc => comma_not_space (List.all_eq_true.mp h c hc))

theorem filter_comma_strip_comm (l : List Char) :
    pyStrip (l.filter (fun c => c != ',')) =
      pyStrip ((pyStrip l).filter (fun c => c != ',')) := by
  obtain ⟨a, b, ha, hb, hl⟩ := pyStrip_decomp l
  conv_lhs => rw [hl]
  rw [List.filter_append, List.filter_append, filter_comma_of_all_space ha,
    filter_comma_of_all_space hb,
    pyStrip_ws_wrap ((pyStrip l).filter (fun c => c != ',')) ha hb]

theorem all_pyStrip {p : Char → Bool} {l : List Char} (h : l.all p) : (pyStrip l).all p := by
  unfold pyStrip
  rw [List.all_reverse]
  apply all_dropWhile
  rw [List.all_reverse]
  exact all_dropWhile h

theorem pyIntOfChars_pyStrip (l : List Char) : pyIntOfChars (pyStrip l) = pyIntOfChars l := by
  unfold pyIntOfChars
  rw [pyStrip_idem]

theorem pyIntOfChars_of_strip_nil {l : List Char} (h : pyStrip l = []) :
    pyIntOfChars l = none := by
  unfold pyIntOfChars
  rw [h]
  rfl

end ICT

namespace ICT

theorem mem_othersQuery {store : List Record} {vehicle : String} {tid : Nat} {r : Record} :
    r ∈ othersQuery store vehicle tid ↔
      r ∈ store ∧ r.vehicle = some vehicle ∧ r.status = "submitted" ∧ r.id ≠ tid := by
  simp [othersQuery, List.mem_filter, and_assoc]

theorem mem_parsedCandidates {others : List Record} {r : Record} {s e : Int} :
    (r, s, e) ∈ parsedCandidates others ↔
      r ∈ others ∧ parse_mileage_or_none r.start_mileage = some s ∧
        parse_mileage_or_none r.end_mileage = some e := by
  unfold parsedCandidates
  rw [List.mem_filterMap]
  constructor
  · rintro ⟨x, hx, hfx⟩
    unfold parseCand at hfx
    rcases hxs : parse_mileage_or_none x.start_mileage with _ | xs
    · rw [hxs] at hfx
      simp at hfx
    · rcases hxe : parse_mileage_or_none x.end_mileage with _ | xe
      · rw [hxs, hxe] at hfx
        simp at hfx
      · rw [hxs, hxe] at hfx
        simp only [Option.some.injEq, Prod.mk.injEq] at hfx
        obtain ⟨hxr, hxs', hxe'⟩ := hfx
        subst hxr
        subst hxs'
        subst hxe'
        exact ⟨hx, hxs, hxe⟩
  · rintro ⟨hr, hs, he⟩
    refine ⟨r, hr, ?_⟩
    unfold parseCand
    rw [hs, he]

theorem mem_overlapsFor {a b : Int} {parsed : List (Record × Int × Int)}
    {t : Record × Int × Int} :
    t ∈ overlapsFor (some a) (some b) parsed ↔ t ∈ parsed ∧ a < t.2.2 ∧ b > t.2.1 := by
  simp [overlapsFor, List.mem_filter]

theorem overlapsFor_none {s0 e0 : Option Int} (parsed : List (Record × Int × Int))
    (h : s0 = none ∨ e0 = none) : overlapsFor s0 e0 parsed = [] := by
  rcases h with h | h <;> subst h
  · rfl
  · cases s0 <;> rfl

theorem maxById_eq_none {l : List Record} : maxById l = none ↔ l = [] := by
  cases l with
  | nil => simp [maxById]
  | cons r rest =>
    simp only [maxById]
    cases maxById rest with
    | none => simp
    | some m => by_cases hlt : m.id < r.id <;> simp [hlt]

theorem maxById_mem : ∀ {l : List Record} {m : Record}, maxById l = some m → m ∈ l := by
  intro l
  induction l with
  | nil => intro m h; simp [maxById] at h
  | cons r rest ih =>
    intro m h
    unfold maxById at h
    cases hr : maxById rest with
    | none =>
      rw [hr] at h
      dsimp only at h
      cases h
      exact List.mem_cons_self r rest
    | some m' =>
      rw [hr] at h
      dsimp only at h
      by_cases hlt : m'.id < r.id
      · rw [if_pos hlt] at h
        cases h
        exact List.mem_cons_self r rest
      · rw [if_neg hlt] at h
        cases h
        exact List.mem_cons_of_mem r (ih hr)

theorem maxById_ge : ∀ {l : List Record} {m : Record}, maxById l = some m →
    ∀ r ∈ l, r.id ≤ m.id := by
  intro l
  induction l with
  | nil => intro m _ r hr; cases hr
  | cons x rest ih =>
    intro m h r hr
    unfold maxById at h
    cases hx : maxById rest with
    | none =>
      rw [hx] at h
      dsimp only at h
      cases h
      rcases List.mem_cons.mp hr with hr | hr
      · subst hr; exact Nat.le_refl _
      · rw [maxById_eq_none.mp hx] at hr
        cases hr
    | some m' =>
      rw [hx] at h
      dsimp only at h
      by_cases hlt : m'.id < x.id
      · rw [if_pos hlt] at h
        cases h
        rcases List.mem_cons.mp hr with hr | hr
        · subst hr; exact Nat.le_refl _
        · exact Nat.le_trans (ih hx r hr) (Nat.le_of_lt hlt)
      · rw [if_neg hlt] at h
        cases h
        rcases List.mem_cons.mp hr with hr | hr
        · subst hr; exact Nat.le_of_not_lt hlt
        · exact ih hx r hr

theorem maxById_isSome {l : List Record} (h : l ≠ []) : (maxById l).isSome := by
  cases hm : maxById l with
  | some m => rfl
  | none => exact absurd (maxById_eq_none.mp hm) h

end ICT

namespace ICT

theorem auditCore_of_missing {store : List Record} {record_id : Nat}
    (h : getById store record_id = none) :
    auditCore store record_id = { issues := [], overlaps := [], alert := none } := by
  unfold auditCore
  rw [h]

theorem auditCore_of_not_submitted {store : List Record} {record_id : Nat} {rec : Record}
    (h1 : getById store record_id = some rec) (h2 : rec.status ≠ "submitted") :
    auditCore store record_id = { issues := [], overlaps := [], alert := none } := by
  unfold auditCore
  rw [h1]
  dsimp only
  rw [if_pos h2]

theorem auditCore_of_blank_vehicle {store : List Record} {record_id : Nat} {rec : Record}
    (h1 : getById store record_id = some rec) (h3 : vehicleOf rec = "") :
    auditCore store record_id = { issues := [], overlaps := [], alert := none } := by
  unfold auditCore
  rw [h1]
  dsimp only
  by_cases h2 : rec.status ≠ "submitted"
  · rw [if_pos h2]
  · rw [if_neg h2, if_pos h3]

theorem auditCore_of_submitted {store : List Record} {record_id : Nat} {rec : Record}
    (h1 : getById store record_id = some rec) (h2 : rec.status = "submitted")
    (h3 : vehicleOf rec ≠ "") :
    auditCore store record_id = mkSubmittedResult store rec := by
  unfold auditCore
  rw [h1]
  dsimp only
  rw [if_neg (fun hne => hne h2), if_neg h3]

theorem mkSubmittedResult_overlaps (store : List Record) (rec : Record) :
    (mkSubmittedResult store rec).overlaps =
      overlapsFor (parse_mileage_or_none rec.start_mileage)
        (parse_mileage_or_none rec.end_mileage)
        (parsedCandidates (othersQuery store (vehicleOf rec) rec.id)) := by
  unfold mkSubmittedResult
  dsimp only
  split <;> rfl

theorem mkSubmittedResult_issues (store : List Record) (rec : Record) :
    (mkSubmittedResult store rec).issues =
      targetIssues (parse_mileage_or_none rec.start_mileage)
          (parse_mileage_or_none rec.end_mileage)
        ++ overlapIssue (mkSubmittedResult store rec).overlaps
        ++ gapIssue (maxById (othersQuery store (vehicleOf rec) rec.id))
            (parse_mileage_or_none rec.start_mileage) := by
  rw [mkSubmittedResult_overlaps]
  unfold mkSubmittedResult
  dsimp only
  split <;> rfl

theorem mkSubmittedResult_alert_isSome (store : List Record) (rec : Record) :
    (mkSubmittedResult store rec).alert.isSome ↔ (mkSubmittedResult store rec).issues ≠ [] := by
  unfold mkSubmittedResult
  dsimp only
  split
  · rename_i h
    rw [List.isEmpty_iff] at h
    simp [h]
  · rename_i h
    rw [List.isEmpty_iff] at h
    simpa using h

end ICT

namespace ICT

theorem endLtStartMsg_head (a b : Int) : (endLtStartMsg a b).data.head? = some 'E' := by
  unfold endLtStartMsg
  exact head_data_append _ (head_data_append _ (head_data_append _ (head_data_append _ rfl)))

theorem overlapMsg_head (n : Nat) : (overlapMsg n).data.head? = some 'O' := by
  unfold overlapMsg
  exact head_data_append _ (head_data_append _ rfl)

theorem gapMsg_ne_invalid : gapMsg ≠ invalidMsg := by decide

theorem gapMsg_ne_endLtStart (a b : Int) : gapMsg ≠ endLtStartMsg a b :=
  str_ne_of_head rfl (endLtStartMsg_head a b) (by decide)

theorem gapMsg_ne_overlapMsg (n : Nat) : gapMsg ≠ overlapMsg n :=
  str_ne_of_head rfl (overlapMsg_head n) (by decide)

theorem gapMsg_not_mem_targetIssues (s0 e0 : Option Int) : gapMsg ∉ targetIssues s0 e0 := by
  unfold targetIssues
  cases s0 with
  | none => simpa using gapMsg_ne_invalid
  | some a =>
    cases e0 with
    | none => simpa using gapMsg_ne_invalid
    | some b =>
      dsimp only
      split
      · simpa using gapMsg_ne_endLtStart a b
      · simp

theorem gapMsg_not_mem_overlapIssue (o : List (Record × Int × Int)) :
    gapMsg ∉ overlapIssue o := by
  unfold overlapIssue
  split
  · simp
  · simpa using gapMsg_ne_overlapMsg o.length

theorem gapMsg_mem_gapIssue_iff {prev : Option Record} {s0 : Option Int} :
    gapMsg ∈ gapIssue prev s0 ↔
      ∃ p, prev = some p ∧ ∃ pe, parse_mileage_or_none p.end_mileage = some pe ∧
        ∃ a, s0 = some a ∧ a - pe > 5 := by
  unfold gapIssue
  cases prev with
  | none => simp
  | some p =>
    cases s0 with
    | none => simp
    | some a =>
      dsimp only
      cases hpe : parse_mileage_or_none p.end_mileage with
      | none => simp [hpe]
      | some pe =>
        simp only [hpe]
        split
        · rename_i hgt
          simp [hpe, hgt]
        · rename_i hgt
          simp [hpe, hgt]

end ICT

namespace ICT

theorem overlapsFor_subset (s0 e0 : Option Int) (parsed : List (Record × Int × Int)) :
    ∀ t ∈ overlapsFor s0 e0 parsed, t ∈ parsed := by
  intro t ht
  rcases s0 with _ | a
  · exact absurd ht (List.not_mem_nil t)
  · rcases e0 with _ | b
    · exact absurd ht (List.not_mem_nil t)
    · exact (List.mem_filter.mp ht).1

theorem auditCore_alert_isSome (store : List Record) (record_id : Nat) :
    (auditCore store record_id).alert.isSome ↔ (auditCore store record_id).issues ≠ [] := by
  cases hg : getById store record_id with
  | none => rw [auditCore_of_missing hg]; simp
  | some rec =>
    by_cases h2 : rec.status = "submitted"
    · by_cases h3 : vehicleOf rec = ""
      · rw [auditCore_of_blank_vehicle hg h3]; simp
      · rw [auditCore_of_submitted hg h2 h3]
        exact mkSubmittedResult_alert_isSome store rec
    · rw [auditCore_of_not_submitted hg h2]; simp

theorem send_blank {env : Option String} {s : String} (he : env = some s)
    (hs : pyStripS s = "") (notifier : Notifier) (subject body : String) :
    send_mileage_error_alert env notifier subject body = SendOutcome.skipped := by
  unfold send_mileage_error_alert _get_alert_email
  rw [he]
  dsimp only [Option.getD]
  rw [hs]
  rfl

/-- C4. `parse_mileage_or_none` maps null and whitespace-only input to null,
strips surrounding whitespace and separator commas, parses base-10 integers
(returning null instead of raising on failure), and enforces no bounds:
"12,345" and "12345" give 12345, "abc" gives null, "-5" gives -5, and
arbitrarily large values pass through. -/
theorem parse_mileage_contract :
    parse_mileage_or_none none = none ∧
    (∀ s : String, s.data.all isPySpace → parse_mileage_or_none (some s) = none) ∧
    parse_mileage_or_none (some "") = none ∧
    parse_mileage_or_none (some "12,345") = some 12345 ∧
    parse_mileage_or_none (some "12345") = some 12345 ∧
    parse_mileage_or_none (some "abc") = none ∧
    parse_mileage_or_none (some "-5") = some (-5) ∧
    parse_mileage_or_none (some "  12,345  ") = some 12345 ∧
    parse_mileage_or_none (some "999999999999999999999") = some 999999999999999999999 := by
  refine ⟨rfl, ?_, by decide, by decide, by decide, by decide, by decide, by decide, by decide⟩
  intro s h
  unfold parse_mileage_or_none
  dsimp only
  rw [pyStrip_of_all h]
  rfl

/-- C4 witness at the whitespace-only input " ". -/
theorem parse_mileage_contract_witness : parse_mileage_or_none (some " ") = none :=
  parse_mileage_contract.2.1 " " (by decide)

/-- C9. The parser deletes every comma anywhere in the input, not only at
thousands-separator positions: parsing any string equals parsing that string
with all commas removed, and "1,2,3" parses to 123. -/
theorem parse_mileage_removes_all_commas :
    (∀ s : String, parse_mileage_or_none (some s) =
        parse_mileage_or_none (some (removeAllCommas s))) ∧
    parse_mileage_or_none (some "1,2,3") = some 123 := by
  refine ⟨?_, by decide⟩
  intro s
  unfold parse_mileage_or_none removeAllCommas
  dsimp only
  generalize s.data = l
  have hcomm := filter_comma_strip_comm l
  by_cases hm : pyStrip l = []
  · have h2 : pyStrip (l.filter (fun c => c != ',')) = [] := by
      rw [hcomm, hm]
      rfl
    rw [hm, h2]
  · rw [hcomm]
    have hgall : ((pyStrip l).filter (fun c => c != ',')).all (fun c => c != ',') :=
      List.all_eq_true.mpr (fun c hc => @List.of_mem_filter _ (fun c => c != ',') c _ hc)
    have huall := all_pyStrip hgall
    have huf : (pyStrip ((pyStrip l).filter (fun c => c != ','))).filter (fun c => c != ',')
        = pyStrip ((pyStrip l).filter (fun c => c != ',')) :=
      List.filter_eq_self.mpr (fun c hc => List.all_eq_true.mp huall c hc)
    rw [huf]
    rw [if_neg (fun hh => hm (List.isEmpty_iff.mp hh))]
    by_cases hg : pyStrip ((pyStrip l).filter (fun c => c != ',')) = []
    · rw [pyIntOfChars_of_strip_nil hg, hg]
      rfl
    · rw [if_neg (fun hh => hg (List.isEmpty_iff.mp hh)), pyIntOfChars_pyStrip]

/-- C7. The audit is a deterministic pure function of the store contents:
re-running it on the store left behind by a first run, under any alert-email
configuration and any transport behavior, yields the same issue list, the
same overlap list, and the same alert subject and body. -/
theorem audit_deterministic_idempotent (store : List Record) (record_id : Nat)
    (env1 env2 : Option String) (n1 n2 : Notifier) :
    (audit_vehicle_mileage_and_alert env2 n2
        (audit_vehicle_mileage_and_alert env1 n1 store record_id).store record_id).result
      = (audit_vehicle_mileage_and_alert env1 n1 store record_id).result := rfl

/-- C6. A transport failure inside `send_mileage_error_alert` is caught and
turned into a log line (never re-raised), and the submission handler catches
any audit failure, always answering with the success redirect. -/
theorem failures_never_propagate :
    (∀ (env : Option String) (subject body msg : String) (notifier : Notifier),
      (∀ r s b, notifier r s b = Except.error msg) →
      send_mileage_error_alert env notifier subject body = SendOutcome.skipped ∨
        send_mileage_error_alert env notifier subject body =
          SendOutcome.failedLogged ("[MileageAudit] Email send failed: " ++ msg)) ∧
    (∀ action : String, action ≠ "save" → ∀ o : Except String AuditRun,
      (vehicle_form_after_commit action o).1 = "form_submitted") := by
  constructor
  · intro env subject body msg notifier hn
    unfold send_mileage_error_alert
    dsimp only
    by_cases hb : _get_alert_email env = ""
    · rw [if_pos hb]
      exact Or.inl rfl
    · rw [if_neg hb, hn]
      exact Or.inr rfl
  · intro action ha o
    unfold vehicle_form_after_commit
    rw [if_pos ha]
    cases o <;> rfl

/-- C6 witness: an always-failing transport yields a logged outcome, and an
audit failure still redirects to the submitted page. -/
theorem failures_never_propagate_witness :
    (send_mileage_error_alert none (fun _ _ _ => Except.error "boom") "s" "b" =
        SendOutcome.skipped ∨
      send_mileage_error_alert none (fun _ _ _ => Except.error "boom") "s" "b" =
        SendOutcome.failedLogged ("[MileageAudit] Email send failed: " ++ "boom")) ∧
    (vehicle_form_after_commit "submit" (Except.error "down")).1 = "form_submitted" :=
  ⟨failures_never_propagate.1 none "s" "b" "boom" _ (fun _ _ _ => rfl),
    failures_never_propagate.2 "submit" (by decide) (Except.error "down")⟩

end ICT

namespace ICT

/-- C1. With the target loaded, submitted and on a nonblank vehicle: a parsed
same-vehicle submitted candidate is reported overlapping iff
`target_start < candidate_end` and `target_end > candidate_start`; candidates
that fail to parse never appear; and a target with an unparseable bound
produces an empty overlap list. -/
theorem overlap_report_characterization (store : List Record) (record_id : Nat) (rec : Record)
    (h1 : getById store record_id = some rec) (h2 : rec.status = "submitted")
    (h3 : vehicleOf rec ≠ "") :
    (∀ a b, parse_mileage_or_none rec.start_mileage = some a →
      parse_mileage_or_none rec.end_mileage = some b →
      ∀ r s e, r ∈ store → r.vehicle = some (vehicleOf rec) → r.status = "submitted" →
        r.id ≠ rec.id →
        parse_mileage_or_none r.start_mileage = some s →
        parse_mileage_or_none r.end_mileage = some e →
        ((r, s, e) ∈ (auditCore store record_id).overlaps ↔ (a < e ∧ b > s))) ∧
    (∀ r, (parse_mileage_or_none r.start_mileage = none ∨
        parse_mileage_or_none r.end_mileage = none) →
      ∀ t ∈ (auditCore store record_id).overlaps, t.1 ≠ r) ∧
    ((parse_mileage_or_none rec.start_mileage = none ∨
        parse_mileage_or_none rec.end_mileage = none) →
      (auditCore store record_id).overlaps = []) := by
  have hov : (auditCore store record_id).overlaps =
      overlapsFor (parse_mileage_or_none rec.start_mileage)
        (parse_mileage_or_none rec.end_mileage)
        (parsedCandidates (othersQuery store (vehicleOf rec) rec.id)) := by
    rw [auditCore_of_submitted h1 h2 h3, mkSubmittedResult_overlaps]
  refine ⟨?_, ?_, ?_⟩
  · intro a b ha hb r s e hrs hv hst hid hps hpe
    rw [hov, ha, hb, mem_overlapsFor]
    have hmem : (r, s, e) ∈ parsedCandidates (othersQuery store (vehicleOf rec) rec.id) :=
      mem_parsedCandidates.mpr ⟨mem_othersQuery.mpr ⟨hrs, hv, hst, hid⟩, hps, hpe⟩
    simp [hmem]
  · intro r hr t ht
    rw [hov] at ht
    have ht2 := overlapsFor_subset _ _ _ t ht
    rcases t with ⟨r2, s, e⟩
    intro hteq
    dsimp only at hteq
    subst hteq
    have hm2 := mem_parsedCandidates.mp ht2
    rcases hr with hr | hr
    · rw [hr] at hm2
      exact Option.noConfusion hm2.2.1
    · rw [hr] at hm2
      exact Option.noConfusion hm2.2.2
  · intro h
    rw [hov, overlapsFor_none _ h]

/-- C1 witness: in the two-record store of spec scenario B the sibling
(1100, 1200) is reported against the target (1150, 1250). -/
theorem overlap_report_characterization_witness :
    (recB, 1100, 1200) ∈ (auditCore wstore 10).overlaps ↔ ((1150 : Int) < 1200 ∧ (1250 : Int) > 1100) :=
  (overlap_report_characterization wstore 10 recA rfl rfl (by decide)).1
    1150 1250 rfl rfl recB 1100 1200 (by decide) (by decide) rfl (by decide) rfl rfl

/-- C2 counterexample: both mileage bounds of `recZ` parse to the same value
70, yet the audit reports the candidate range (50, 100) as overlapping; and
symmetrically a zero-width candidate (70, 70) is reported against the target
range (50, 100). -/
theorem zero_width_overlap_counterexample :
    parse_mileage_or_none recZ.start_mileage = some 70 ∧
    parse_mileage_or_none recZ.end_mileage = some 70 ∧
    (auditCore zstore 10).overlaps = [(recW, 50, 100)] ∧
    parse_mileage_or_none recZc.start_mileage = some 70 ∧
    parse_mileage_or_none recZc.end_mileage = some 70 ∧
    (auditCore zstore2 10).overlaps = [(recZc, 70, 70)] := by
  refine ⟨rfl, rfl, ?_, rfl, rfl, ?_⟩ <;> decide

/-- C2 as amended. The audit's strict test `s0 < e ∧ e0 > s` makes a
zero-width range overlap exactly the ranges whose interior strictly contains
its point: a target with start = end = x is reported against a parsed
candidate (s, e) iff `s < x < e`, and a zero-width candidate (y, y) is
reported against a target (a, b) iff `a < y < b`; ranges that merely touch at
an endpoint are still never reported. -/
theorem zero_width_overlap_amended (store : List Record) (record_id : Nat) (rec : Record)
    (h1 : getById store record_id = some rec) (h2 : rec.status = "submitted")
    (h3 : vehicleOf rec ≠ "") :
    (∀ x, parse_mileage_or_none rec.start_mileage = some x →
      parse_mileage_or_none rec.end_mileage = some x →
      ∀ r s e, ((r, s, e) ∈ (auditCore store record_id).overlaps ↔
        (r, s, e) ∈ parsedCandidates (othersQuery store (vehicleOf rec) rec.id) ∧
          s < x ∧ x < e)) ∧
    (∀ a b, parse_mileage_or_none rec.start_mileage = some a →
      parse_mileage_or_none rec.end_mileage = some b →
      ∀ r y, ((r, y, y) ∈ (auditCore store record_id).overlaps ↔
        (r, y, y) ∈ parsedCandidates (othersQuery store (vehicleOf rec) rec.id) ∧
          a < y ∧ y < b)) := by
  have hov : (auditCore store record_id).overlaps =
      overlapsFor (parse_mileage_or_none rec.start_mileage)
        (parse_mileage_or_none rec.end_mileage)
        (parsedCandidates (othersQuery store (vehicleOf rec) rec.id)) := by
    rw [auditCore_of_submitted h1 h2 h3, mkSubmittedResult_overlaps]
  constructor
  · intro x hx hx2 r s e
    rw [hov, hx, hx2, mem_overlapsFor]
    dsimp only
    tauto
  · intro a b ha hb r y
    rw [hov, ha, hb, mem_overlapsFor]

/-- C2 witness: the zero-width target (70, 70) against the candidate
(50, 100), where 50 < 70 < 100. -/
theorem zero_width_overlap_amended_witness :
    (recW, 50, 100) ∈ (auditCore zstore 10).overlaps ↔
      (recW, 50, 100) ∈ parsedCandidates (othersQuery zstore (vehicleOf recZ) recZ.id) ∧
        (50 : Int) < 70 ∧ (70 : Int) < 100 :=
  (zero_width_overlap_amended zstore 10 recZ rfl rfl (by decide)).1 70 rfl rfl recW 50 100

/-- C3. The designated previous record is the same-vehicle submitted record
with the largest identifier among those other than the target (it exists
whenever the sibling list is nonempty), and the gap issue is reported iff that
record exists, its end mileage parses, the target's start mileage parses, and
`target_start - previous_end > 5` (so 5, 0 or negative gaps are not flagged). -/
theorem gap_issue_characterization (store : List Record) (record_id : Nat) (rec : Record)
    (h1 : getById store record_id = some rec) (h2 : rec.status = "submitted")
    (h3 : vehicleOf rec ≠ "") :
    (∀ p, maxById (othersQuery store (vehicleOf rec) rec.id) = some p →
      p ∈ othersQuery store (vehicleOf rec) rec.id ∧
        ∀ r ∈ othersQuery store (vehicleOf rec) rec.id, r.id ≤ p.id) ∧
    (othersQuery store (vehicleOf rec) rec.id ≠ [] →
      (maxById (othersQuery store (vehicleOf rec) rec.id)).isSome) ∧
    (gapMsg ∈ (auditCore store record_id).issues ↔
      ∃ p, maxById (othersQuery store (vehicleOf rec) rec.id) = some p ∧
        ∃ pe, parse_mileage_or_none p.end_mileage = some pe ∧
          ∃ a, parse_mileage_or_none rec.start_mileage = some a ∧ a - pe > 5) := by
  refine ⟨fun p hp => ⟨maxById_mem hp, maxById_ge hp⟩, fun h => maxById_isSome h, ?_⟩
  rw [auditCore_of_submitted h1 h2 h3, mkSubmittedResult_issues]
  simp only [List.mem_append]
  constructor
  · rintro ((h | h) | h)
    · exact absurd h (gapMsg_not_mem_targetIssues _ _)
    · exact absurd h (gapMsg_not_mem_overlapIssue _)
    · exact gapMsg_mem_gapIssue_iff.mp h
  · intro h
    exact Or.inr (gapMsg_mem_gapIssue_iff.mpr h)

/-- C3 witness: spec scenario C, previous end 1200, target start 1210. -/
theorem gap_issue_characterization_witness :
    gapMsg ∈ (auditCore gstore 10).issues ↔
      ∃ p, maxById (othersQuery gstore (vehicleOf recC) recC.id) = some p ∧
        ∃ pe, parse_mileage_or_none p.end_mileage = some pe ∧
          ∃ a, parse_mileage_or_none recC.start_mileage = some a ∧ a - pe > 5 :=
  (gap_issue_characterization gstore 10 recC rfl rfl (by decide)).2.2

end ICT

namespace ICT

theorem optionMap_isSome {α β : Type} (f : α → β) (o : Option α) :
    (o.map f).isSome = o.isSome := by
  cases o <;> rfl

/-- C5. The Notifier-facing dispatch happens iff at least one issue was
collected; a missing record, a record whose status is not "submitted" (drafts
included, whatever their mileage fields), and a blank vehicle are all strict
no-ops: empty issue list and no dispatch. -/
theorem alert_dispatch_iff_issues (env : Option String) (notifier : Notifier)
    (store : List Record) (record_id : Nat) :
    ((audit_vehicle_mileage_and_alert env notifier store record_id).dispatch.isSome ↔
      (audit_vehicle_mileage_and_alert env notifier store record_id).result.issues ≠ []) ∧
    (getById store record_id = none →
      (audit_vehicle_mileage_and_alert env notifier store record_id).result =
          { issues := [], overlaps := [], alert := none } ∧
        (audit_vehicle_mileage_and_alert env notifier store record_id).dispatch = none) ∧
    (∀ rec, getById store record_id = some rec → rec.status ≠ "submitted" →
      (audit_vehicle_mileage_and_alert env notifier store record_id).result =
          { issues := [], overlaps := [], alert := none } ∧
        (audit_vehicle_mileage_and_alert env notifier store record_id).dispatch = none) ∧
    (∀ rec, getById store record_id = some rec → vehicleOf rec = "" →
      (audit_vehicle_mileage_and_alert env notifier store record_id).result =
          { issues := [], overlaps := [], alert := none } ∧
        (audit_vehicle_mileage_and_alert env notifier store record_id).dispatch = none) := by
  refine ⟨?_, ?_, ?_, ?_⟩
  · show (Option.map _ (auditCore store record_id).alert).isSome ↔
      (auditCore store record_id).issues ≠ []
    rw [optionMap_isSome]
    exact auditCore_alert_isSome store record_id
  · intro h
    constructor
    · show auditCore store record_id = _
      exact auditCore_of_missing h
    · show Option.map _ (auditCore store record_id).alert = none
      rw [auditCore_of_missing h]
      rfl
  · intro rec hrec h2
    constructor
    · show auditCore store record_id = _
      exact auditCore_of_not_submitted hrec h2
    · show Option.map _ (auditCore store record_id).alert = none
      rw [auditCore_of_not_submitted hrec h2]
      rfl
  · intro rec hrec h3
    constructor
    · show auditCore store record_id = _
      exact auditCore_of_blank_vehicle hrec h3
    · show Option.map _ (auditCore store record_id).alert = none
      rw [auditCore_of_blank_vehicle hrec h3]
      rfl

/-- C5 witness: the draft record with bad mileage fields is a strict no-op. -/
theorem alert_dispatch_iff_issues_witness :
    (audit_vehicle_mileage_and_alert none notifOk dstore 7).result =
        { issues := [], overlaps := [], alert := none } ∧
      (audit_vehicle_mileage_and_alert none notifOk dstore 7).dispatch = none :=
  (alert_dispatch_iff_issues none notifOk dstore 7).2.2.1 draftRec rfl (by decide)

/-- C8. The audit mutates nothing: the store after a run is the store it was
given, and every record mentioned in the reported overlaps is a member of
that same store, unchanged. -/
theorem audit_read_only (env : Option String) (notifier : Notifier) (store : List Record)
    (record_id : Nat) :
    (audit_vehicle_mileage_and_alert env notifier store record_id).store = store ∧
    ∀ t ∈ (audit_vehicle_mileage_and_alert env notifier store record_id).result.overlaps,
      t.1 ∈ store := by
  refine ⟨rfl, ?_⟩
  intro t ht
  change t ∈ (auditCore store record_id).overlaps at ht
  cases hg : getById store record_id with
  | none =>
    rw [auditCore_of_missing hg] at ht
    exact absurd ht (List.not_mem_nil t)
  | some rec =>
    by_cases h2 : rec.status = "submitted"
    · by_cases h3 : vehicleOf rec = ""
      · rw [auditCore_of_blank_vehicle hg h3] at ht
        exact absurd ht (List.not_mem_nil t)
      · rw [auditCore_of_submitted hg h2 h3, mkSubmittedResult_overlaps] at ht
        have ht2 := overlapsFor_subset _ _ _ t ht
        rcases t with ⟨r, s, e⟩
        have hm2 := mem_parsedCandidates.mp ht2
        exact (mem_othersQuery.mp hm2.1).1
    · rw [auditCore_of_not_submitted hg h2] at ht
      exact absurd ht (List.not_mem_nil t)

/-- C8 witness: the store is preserved and the reported overlapping record is
a store member. -/
theorem audit_read_only_witness : (recB, (1100 : Int), (1200 : Int)).1 ∈ wstore :=
  (audit_read_only none notifOk wstore 10).2 (recB, 1100, 1200) (by decide)

/-- C10. With `ALERT_EMAIL` set to a whitespace-only string the audit's
outcome does not depend on the transport at all, any dispatch that happens is
the skipped outcome (no delivery attempt, no error), and an audit that does
collect issues still only reaches that skipped outcome. -/
theorem blank_alert_email_no_delivery (env : Option String) (s : String)
    (he : env = some s) (hs : pyStripS s = "") (store : List Record) (record_id : Nat)
    (n1 n2 : Notifier) :
    audit_vehicle_mileage_and_alert env n1 store record_id =
        audit_vehicle_mileage_and_alert env n2 store record_id ∧
    (∀ out, (audit_vehicle_mileage_and_alert env n1 store record_id).dispatch = some out →
      out = SendOutcome.skipped) ∧
    ((audit_vehicle_mileage_and_alert env n1 store record_id).result.issues ≠ [] →
      (audit_vehicle_mileage_and_alert env n1 store record_id).dispatch =
        some SendOutcome.skipped) := by
  refine ⟨?_, ?_, ?_⟩
  · unfold audit_vehicle_mileage_and_alert
    dsimp only
    have hm1 : Option.map (fun sb : String × String => send_mileage_error_alert env n1 sb.1 sb.2)
        (auditCore store record_id).alert
        = Option.map (fun _ : String × String => SendOutcome.skipped)
            (auditCore store record_id).alert :=
      Option.map_congr (fun sb _ => send_blank he hs n1 sb.1 sb.2)
    have hm2 : Option.map (fun sb : String × String => send_mileage_error_alert env n2 sb.1 sb.2)
        (auditCore store record_id).alert
        = Option.map (fun _ : String × String => SendOutcome.skipped)
            (auditCore store record_id).alert :=
      Option.map_congr (fun sb _ => send_blank he hs n2 sb.1 sb.2)
    rw [hm1, hm2]
  · intro out hout
    change Option.map _ (auditCore store record_id).alert = some out at hout
    cases halert : (auditCore store record_id).alert with
    | none => rw [halert] at hout; cases hout
    | some sb =>
      rw [halert] at hout
      dsimp only [Option.map] at hout
      rw [send_blank he hs n1 sb.1 sb.2] at hout
      exact (Option.some.inj hout).symm
  · intro hissues
    have halert : (auditCore store record_id).alert.isSome :=
      (auditCore_alert_isSome store record_id).mpr hissues
    change Option.map _ (auditCore store record_id).alert = some SendOutcome.skipped
    cases halert2 : (auditCore store record_id).alert with
    | none => rw [halert2] at halert; cases halert
    | some sb =>
      dsimp only [Option.map]
      rw [send_blank he hs n1 sb.1 sb.2]

/-- C10 witness: on the overlapping store, with `ALERT_EMAIL = " "`, the run
has issues yet only a skipped dispatch. -/
theorem blank_alert_email_no_delivery_witness :
    (audit_vehicle_mileage_and_alert (some " ") notifOk wstore 10).dispatch =
      some SendOutcome.skipped :=
  (blank_alert_email_no_delivery (some " ") " " rfl (by decide) wstore 10 notifOk notifOk).2.2
    (by decide)

end ICT
